import Mathlib

/-!
Shallow embedding of `src/base_class.py` (DeepIRTools): the `BaseClass`
training harness for VAE-type models, with its fitting step, convergence
check, per-epoch training loop, evaluation loop, epoch driver and
checkpoint save/load.

Python floats that flow through the loss bookkeeping are modelled by the
inductive `FVal` (an exact rational for finite values, plus the two
infinities and NaN, with IEEE-style comparison and addition).  The
third-party autodiff framework (the model forward pass, the loss function,
`backward`, and the optimizer) is the external collaborator the spec
excludes; it is abstracted by the fields of `BCConfig`: `lossFn` gives the
value of `self.loss_function(data, *self.model(data, mc, iw), mc, iw)`,
`gradOf` the gradient accumulated by `loss.backward()`, `zeroGrad` the
effect of `optimizer.zero_grad()`, and `optStep` the parameter/optimizer
update done by `optimizer.step()`.  Data loaders are lists of batches.
Printing is modelled by appending a `Msg` to the `msgs` trace.
-/

namespace DeepIRT

/-- Model of a Python float as it appears in the loss bookkeeping of
`base_class.py`: a finite value (exact rational), `inf`, `-inf`, or NaN. -/
inductive FVal where
  | fin (q : Rat)
  | inf
  | neginf
  | nan
  deriving DecidableEq, Repr

/-- Embeds `torch.isnan` / `numpy` NaN-ness: true exactly on NaN. -/
def FVal.isnan : FVal → Bool
  | .nan => true
  | _ => false

/-- A float is finite when it is neither NaN nor one of the infinities. -/
def FVal.isfinite : FVal → Bool
  | .fin _ => true
  | _ => false

/-- IEEE `<` on modelled floats: any comparison with NaN is false. -/
def FVal.blt : FVal → FVal → Bool
  | .nan, _ => false
  | _, .nan => false
  | .fin a, .fin b => a < b
  | .fin _, .inf => true
  | .fin _, .neginf => false
  | .inf, _ => false
  | .neginf, .neginf => false
  | .neginf, _ => true

/-- IEEE `>=` on modelled floats: any comparison with NaN is false. -/
def FVal.bge : FVal → FVal → Bool
  | .nan, _ => false
  | _, .nan => false
  | .fin a, .fin b => b ≤ a
  | .inf, _ => true
  | _, .inf => false
  | _, .neginf => true
  | .neginf, _ => false

/-- IEEE addition on modelled floats: NaN propagates, `inf + -inf` is NaN. -/
def FVal.add : FVal → FVal → FVal
  | .nan, _ => .nan
  | _, .nan => .nan
  | .fin a, .fin b => .fin (a + b)
  | .inf, .neginf => .nan
  | .neginf, .inf => .nan
  | .inf, _ => .inf
  | _, .inf => .inf
  | .neginf, _ => .neginf
  | _, .neginf => .neginf

/-- Division of a modelled float by a natural number, as used by the mean;
division by zero (empty list) yields NaN, matching `np.mean([])`. -/
def FVal.divNat : FVal → Nat → FVal
  | _, 0 => .nan
  | .fin q, n => .fin (q / (n : Rat))
  | .inf, _ => .inf
  | .neginf, _ => .neginf
  | .nan, _ => .nan

/-- Embeds `np.mean` on the loss list: sum of the entries divided by the
length (NaN on the empty list). -/
def npMean (l : List FVal) : FVal :=
  (l.foldl FVal.add (.fin 0)).divNat l.length

/-- The messages `base_class.py` can print, abstracting away the float
formatting: the NaN-loss termination message of `train`, the progress
report of `check_convergence`, and the failure message of `run_training`. -/
inductive Msg where
  | nanLoss
  | progress (epoch : Int) (iter : Int) (curMeanLoss : FVal) (counter : Nat)
  | failedConverge (maxEpochs : Nat)
  deriving DecidableEq, Repr

/-- Python exceptions that the modelled operations can raise. -/
inductive PyErr where
  | attributeError
  | fileNotFoundError
  deriving DecidableEq, Repr

/-- The constructor arguments of `BaseClass.__init__` together with the
subclass-supplied collaborators (model forward + loss function, autograd
and optimizer), over abstract types: `P` the model parameter state
(`state_dict`), `G` the gradient buffers, `O` the optimizer state, `D` a
data batch.  `toDevice` embeds `data.to(self.device).float()`. -/
structure BCConfig (P G O D : Type) where
  input_dim : Int
  inf_dims : List Int
  latent_dim : Int
  lr : Rat
  log_interval : Int
  steps_anneal : Int
  verbose : Bool
  toDevice : D → D
  lossFn : P → D → Nat → Nat → FVal
  gradOf : P → G → D → Nat → Nat → G
  zeroGrad : G
  optStep : P → G → O → P × O

/-- The mutable attributes of a `BaseClass` instance: the training
bookkeeping set by `__init__`, the model/optimizer state supplied by the
subclass, the module's train/eval mode flag, the `timerecords` attribute
assigned by `run_training` (absent, i.e. `none`, unless something set it),
and the trace of printed messages. -/
structure BCState (P G O : Type) where
  global_iter : Int
  converged : Bool
  loss_list : List FVal
  best_avg_loss : Option FVal
  loss_improvement_counter : Nat
  params : P
  grads : G
  optState : O
  training : Bool
  timerecords : Option (List (String × Rat))
  msgs : List Msg
  deriving DecidableEq, Repr

variable {P G O D : Type}

/-- Embeds `BaseClass.__init__`: `global_iter = 0`, `converged = False`,
`loss_list = []`, `best_avg_loss = None`, `loss_improvement_counter = 0`.
In the source `self.model` and `self.optimizer` are set to `None` and are
to be provided by subclasses; here the subclass-supplied parameter,
gradient and optimizer states are taken as arguments.  No `timerecords`
attribute is initialized. -/
def base_init (p : P) (g : G) (o : O) : BCState P G O :=
  { global_iter := 0
    converged := false
    loss_list := []
    best_avg_loss := none
    loss_improvement_counter := 0
    params := p
    grads := g
    optState := o
    training := true
    timerecords := none
    msgs := [] }

/-- Embeds `BaseClass.step`: in training mode zero the gradients; compute
the loss from the forward pass; if in training mode and the loss is not
NaN, run the backward pass and the optimizer step.  Returns the updated
state and the loss. -/
def step (cfg : BCConfig P G O D) (s : BCState P G O) (data : D)
    (mc_samples iw_samples : Nat) : BCState P G O × FVal :=
  let s1 := if s.training then { s with grads := cfg.zeroGrad } else s
  let loss := cfg.lossFn s1.params data mc_samples iw_samples
  if s1.training && !loss.isnan then
    let g := cfg.gradOf s1.params s1.grads data mc_samples iw_samples
    let po := cfg.optStep s1.params g s1.optState
    ({ s1 with grads := g, params := po.1, optState := po.2 }, loss)
  else
    (s1, loss)

/-- The loss-list update at the top of `BaseClass.check_convergence`:
`self.loss_list.append(loss.item())`, then `pop(0)` when the length
exceeds 100. -/
def push_loss (l : List FVal) (loss : FVal) : List FVal :=
  let l1 := l ++ [loss]
  if l1.length > 100 then l1.tail else l1

/-- The guard of the convergence check in `check_convergence`:
`(self.global_iter - 1) % 100 == 0 and self.global_iter != 1`. -/
def check_eligible (s : BCState P G O) : Bool :=
  (s.global_iter - 1) % 100 == 0 && s.global_iter != 1

/-- The `best_avg_loss` / `loss_improvement_counter` / `converged` update
of `check_convergence` once `cur_mean_loss` has been computed: initialize
`best_avg_loss` when it is `None`; on improvement update it and reset the
counter (when it is at least 1); otherwise increment the counter and set
`converged` once the counter reaches 100. -/
def conv_update (s1 : BCState P G O) (cur : FVal) : BCState P G O :=
  match s1.best_avg_loss with
  | none => { s1 with best_avg_loss := some cur }
  | some best =>
      if FVal.blt cur best then
        let s3 := { s1 with best_avg_loss := some cur }
        if s3.loss_improvement_counter ≥ 1 then
          { s3 with loss_improvement_counter := 0 }
        else s3
      else if FVal.bge cur best then
        let s3 :=
          { s1 with loss_improvement_counter :=
              s1.loss_improvement_counter + 1 }
        if s3.loss_improvement_counter ≥ 100 then
          { s3 with converged := true }
        else s3
      else s1

/-- Embeds `BaseClass.check_convergence`: append the loss to `loss_list`
(popping the oldest entry when the length exceeds 100); then, when
`(global_iter - 1) % 100 == 0 and global_iter != 1`, compute
`cur_mean_loss = np.mean(self.loss_list)`, run `conv_update` on it, and
possibly print a progress report. -/
def check_convergence (cfg : BCConfig P G O D) (s : BCState P G O)
    (loss : FVal) (epoch : Int) : BCState P G O :=
  let s1 := { s with loss_list := push_loss s.loss_list loss }
  if check_eligible s1 then
    let cur := npMean s1.loss_list
    let s2 := conv_update s1 cur
    if (s2.global_iter - 1) % cfg.log_interval == 0 && cfg.verbose then
      { s2 with msgs := s2.msgs ++
          [Msg.progress epoch s2.global_iter cur s2.loss_improvement_counter] }
    else s2
  else s1

/-- The batch loop of `BaseClass.train`: for each batch, unless
`converged` is set (in which case the loop breaks), increment
`global_iter`, move the batch to the device, run `step`; on a NaN loss
print the termination message, set `converged` and break; otherwise, once
`global_iter` has passed `steps_anneal`, run `check_convergence`. -/
def train_go (cfg : BCConfig P G O D) (epoch : Int) (mc_samples iw_samples : Nat) :
    List D → BCState P G O → BCState P G O
  | [], s => s
  | d :: rest, s =>
    if s.converged then s
    else
      let s1 := { s with global_iter := s.global_iter + 1 }
      let pr := step cfg s1 (cfg.toDevice d) mc_samples iw_samples
      if pr.2.isnan then
        { pr.1 with msgs := pr.1.msgs ++ [Msg.nanLoss], converged := true }
      else
        let s3 :=
          if pr.1.global_iter ≥ cfg.steps_anneal then
            check_convergence cfg pr.1 pr.2 epoch
          else pr.1
        train_go cfg epoch mc_samples iw_samples rest s3

/-- Embeds `BaseClass.train`: switch the model to training mode, then run
the batch loop.  The `eval_loader` argument is accepted and unused, as in
the source. -/
def train (cfg : BCConfig P G O D) (train_loader : List D) (_eval_loader : List D)
    (epoch : Int) (mc_samples iw_samples : Nat) (s : BCState P G O) :
    BCState P G O :=
  train_go cfg epoch mc_samples iw_samples train_loader { s with training := true }

/-- Embeds `BaseClass.test`: switch the model to evaluation mode, sum the
per-batch losses returned by `step` (under `torch.no_grad()`, which has no
effect here since evaluation-mode `step` performs no update), switch the
model back to training mode, and return the total. -/
def test (cfg : BCConfig P G O D) (eval_loader : List D)
    (mc_samples iw_samples : Nat) (s : BCState P G O) :
    BCState P G O × FVal :=
  let r := eval_loader.foldl
    (fun acc d =>
      let pr := step cfg acc.1 (cfg.toDevice d) mc_samples iw_samples
      (pr.1, FVal.add acc.2 pr.2))
    ({ s with training := false }, FVal.fin 0)
  ({ r.1 with training := true }, r.2)

/-- The `while not self.converged` epoch loop of `BaseClass.run_training`,
written with explicit fuel: each iteration runs `train` for one epoch,
increments the epoch counter, and breaks with a failure message when the
counter reaches `max_epochs` without convergence.  `none` models
non-termination (fuel exhausted before the loop exited). -/
def run_training_loop (cfg : BCConfig P G O D) (train_loader eval_loader : List D)
    (mc_samples iw_samples : Nat) (max_epochs : Nat) :
    Nat → Nat → BCState P G O → Option (BCState P G O × Nat)
  | 0, epoch, s => if s.converged then some (s, epoch) else none
  | fuel + 1, epoch, s =>
    if s.converged then some (s, epoch)
    else
      let s1 := train cfg train_loader eval_loader (epoch : Int)
        mc_samples iw_samples s
      let epoch1 := epoch + 1
      if epoch1 == max_epochs && !s1.converged then
        some ({ s1 with msgs := s1.msgs ++ [Msg.failedConverge max_epochs] },
          epoch1)
      else
        run_training_loop cfg train_loader eval_loader mc_samples iw_samples
          max_epochs fuel epoch1 s1

/-- Embeds `BaseClass.run_training` after the data loaders have been
built (the loaders come from the external `read_data.csv_dataset` and
`torch.utils.data.DataLoader` collaborators and are taken as arguments):
run the epoch loop from `epoch = 0`, then record the fitting time into
`self.timerecords["Fitted Model"]` — an `AttributeError` when the
`timerecords` attribute was never set.  The wall-clock duration is the
`elapsed` argument.  `none` models a non-terminating epoch loop. -/
def run_training (cfg : BCConfig P G O D) (train_loader eval_loader : List D)
    (max_epochs mc_samples iw_samples : Nat) (elapsed : Rat)
    (s : BCState P G O) : Option (Except PyErr (BCState P G O)) :=
  match run_training_loop cfg train_loader eval_loader mc_samples iw_samples
      max_epochs max_epochs 0 s with
  | none => none
  | some (s1, _) =>
    match s1.timerecords with
    | none => some (.error PyErr.attributeError)
    | some tr =>
      let tr1 := ("Fitted Model", elapsed) ::
        tr.filter (fun kv => kv.1 ≠ "Fitted Model")
      some (.ok { s1 with timerecords := some tr1 })

/-- POSIX `os.path.join` on two components, as used by `save_model` and
`load_model`. -/
def posix_join (a b : String) : String :=
  if b.startsWith "/" then b
  else if a = "" || a.endsWith "/" then a ++ b
  else a ++ "/" ++ b

/-- The checkpoint file path used by both `save_model` and `load_model`:
`os.path.join(path, model_name) + ".pth"`. -/
def ckpt_path (path model_name : String) : String :=
  posix_join path model_name ++ ".pth"

/-- Embeds `BaseClass.save_model`: write the model's `state_dict` (its
parameter state) to the checkpoint path in the filesystem, modelled as a
map from paths to stored parameter states.  `torch.no_grad()` has no
effect on the stored value. -/
def save_model (s : BCState P G O) (model_name save_path : String)
    (fs : String → Option P) : String → Option P :=
  fun p => if p = ckpt_path save_path model_name then some s.params else fs p

/-- Embeds `BaseClass.load_model`: read the checkpoint at the path and
load it into the model with `load_state_dict`, replacing the parameter
state; a missing file raises (`torch.load` fails). -/
def load_model (s : BCState P G O) (model_name load_path : String)
    (fs : String → Option P) : Except PyErr (BCState P G O) :=
  match fs (ckpt_path load_path model_name) with
  | none => .error PyErr.fileNotFoundError
  | some sd => .ok { s with params := sd }

/-- The value `cur_mean_loss = np.mean(self.loss_list)` that
`check_convergence` computes after updating the loss list. -/
def cur_mean (s : BCState P G O) (loss : FVal) : FVal :=
  npMean (push_loss s.loss_list loss)

/-- The exact condition under which `conv_update` declares convergence,
as a function of the current `best_avg_loss`, the current no-improvement
counter and the new mean loss `c`: the best loss is set, `c < best` fails,
`c >= best` holds, and the incremented counter reaches 100. -/
def no_improve_trigger_at (best : Option FVal) (counter : Nat) (c : FVal) :
    Bool :=
  match best with
  | none => false
  | some b =>
      !FVal.blt c b && FVal.bge c b && decide (counter + 1 ≥ 100)

/-- The exact condition under which the convergence check declares
convergence: `best_avg_loss` is set, the new mean loss is not an
improvement (`cur < best` fails and `cur >= best` holds), and the
incremented no-improvement counter reaches 100. -/
def no_improve_trigger (s : BCState P G O) (loss : FVal) : Bool :=
  no_improve_trigger_at s.best_avg_loss s.loss_improvement_counter
    (cur_mean s loss)

/-- A concrete configuration over unit model/optimizer/batch types whose
loss function constantly returns `v`, used to evaluate the embedding on
concrete inputs. -/
def unitCfg (v : FVal) : BCConfig Unit Unit Unit Unit :=
  { input_dim := 1
    inf_dims := []
    latent_dim := 1
    lr := 1
    log_interval := 1
    steps_anneal := 0
    verbose := false
    toDevice := id
    lossFn := fun _ _ _ _ => v
    gradOf := fun _ _ _ _ _ => ()
    zeroGrad := ()
    optStep := fun p _ o => (p, o) }

/-! Helper lemmas about `step`. -/

theorem step_snd (cfg : BCConfig P G O D) (s : BCState P G O) (d : D)
    (mc iw : Nat) : (step cfg s d mc iw).2 = cfg.lossFn s.params d mc iw := by
  simp only [step]
  split <;> split <;> rfl

theorem step_fst_global_iter (cfg : BCConfig P G O D) (s : BCState P G O)
    (d : D) (mc iw : Nat) :
    (step cfg s d mc iw).1.global_iter = s.global_iter := by
  simp only [step]
  split <;> split <;> rfl

theorem step_fst_converged (cfg : BCConfig P G O D) (s : BCState P G O)
    (d : D) (mc iw : Nat) :
    (step cfg s d mc iw).1.converged = s.converged := by
  simp only [step]
  split <;> split <;> rfl

theorem step_fst_loss_list (cfg : BCConfig P G O D) (s : BCState P G O)
    (d : D) (mc iw : Nat) :
    (step cfg s d mc iw).1.loss_list = s.loss_list := by
  simp only [step]
  split <;> split <;> rfl

theorem step_fst_best (cfg : BCConfig P G O D) (s : BCState P G O)
    (d : D) (mc iw : Nat) :
    (step cfg s d mc iw).1.best_avg_loss = s.best_avg_loss := by
  simp only [step]
  split <;> split <;> rfl

theorem step_fst_counter (cfg : BCConfig P G O D) (s : BCState P G O)
    (d : D) (mc iw : Nat) :
    (step cfg s d mc iw).1.loss_improvement_counter =
      s.loss_improvement_counter := by
  simp only [step]
  split <;> split <;> rfl

theorem step_fst_training (cfg : BCConfig P G O D) (s : BCState P G O)
    (d : D) (mc iw : Nat) :
    (step cfg s d mc iw).1.training = s.training := by
  simp only [step]
  split <;> split <;> rfl

theorem step_fst_timerecords (cfg : BCConfig P G O D) (s : BCState P G O)
    (d : D) (mc iw : Nat) :
    (step cfg s d mc iw).1.timerecords = s.timerecords := by
  simp only [step]
  split <;> split <;> rfl

theorem step_fst_msgs (cfg : BCConfig P G O D) (s : BCState P G O)
    (d : D) (mc iw : Nat) :
    (step cfg s d mc iw).1.msgs = s.msgs := by
  simp only [step]
  split <;> split <;> rfl

theorem step_not_training (cfg : BCConfig P G O D) (s : BCState P G O)
    (d : D) (mc iw : Nat) (h : s.training = false) :
    step cfg s d mc iw = (s, cfg.lossFn s.params d mc iw) := by
  simp [step, h]

theorem step_nan_training (cfg : BCConfig P G O D) (s : BCState P G O)
    (d : D) (mc iw : Nat) (h : s.training = true)
    (hn : (cfg.lossFn s.params d mc iw).isnan = true) :
    step cfg s d mc iw =
      ({ s with grads := cfg.zeroGrad }, cfg.lossFn s.params d mc iw) := by
  simp [step, h, hn]

/-! Helper lemmas about `push_loss` and the rolling window. -/

theorem push_loss_length (l : List FVal) (x : FVal) (h : l.length ≤ 100) :
    (push_loss l x).length ≤ 100 := by
  simp only [push_loss]
  split <;> simp_all

theorem push_loss_drop (l : List FVal) (x : FVal) (h : l.length ≤ 100) :
    push_loss l x = (l ++ [x]).drop (l.length + 1 - 100) := by
  simp only [push_loss]
  split
  · next hl =>
      simp only [List.length_append, List.length_cons, List.length_nil] at hl
      have h100 : l.length = 100 := by omega
      rw [h100]
      simp [List.drop_one]
  · next hl =>
      simp only [List.length_append, List.length_cons, List.length_nil] at hl
      have h0 : l.length + 1 - 100 = 0 := by omega
      rw [h0, List.drop_zero]

/-! Helper lemmas about `conv_update`. -/

theorem conv_update_global_iter (s : BCState P G O) (c : FVal) :
    (conv_update s c).global_iter = s.global_iter := by
  simp only [conv_update]
  repeat' split
  all_goals rfl

theorem conv_update_loss_list (s : BCState P G O) (c : FVal) :
    (conv_update s c).loss_list = s.loss_list := by
  simp only [conv_update]
  repeat' split
  all_goals rfl

theorem conv_update_msgs (s : BCState P G O) (c : FVal) :
    (conv_update s c).msgs = s.msgs := by
  simp only [conv_update]
  repeat' split
  all_goals rfl

theorem conv_update_timerecords (s : BCState P G O) (c : FVal) :
    (conv_update s c).timerecords = s.timerecords := by
  simp only [conv_update]
  repeat' split
  all_goals rfl

theorem conv_update_training (s : BCState P G O) (c : FVal) :
    (conv_update s c).training = s.training := by
  simp only [conv_update]
  repeat' split
  all_goals rfl

theorem conv_update_converged (s : BCState P G O) (c : FVal) :
    (conv_update s c).converged =
      (s.converged ||
        no_improve_trigger_at s.best_avg_loss s.loss_improvement_counter c) := by
  rcases hb : s.best_avg_loss with _ | b
  · simp [conv_update, no_improve_trigger_at, hb]
  · simp only [conv_update, no_improve_trigger_at, hb]
    split
    · next hlt =>
        split <;> simp [hlt]
    · next hlt =>
        split
        · next hge =>
            split
            · next hc => simp_all
            · next hc => simp_all
        · next hge => simp [hlt, hge]

theorem conv_update_counter_cases (s : BCState P G O) (c : FVal) :
    (conv_update s c).loss_improvement_counter = s.loss_improvement_counter ∨
    ((conv_update s c).loss_improvement_counter =
        s.loss_improvement_counter + 1 ∧
      ∃ b, s.best_avg_loss = some b ∧ FVal.bge c b = true) ∨
    ((conv_update s c).loss_improvement_counter = 0 ∧
      ∃ b, s.best_avg_loss = some b ∧ FVal.blt c b = true) := by
  rcases hb : s.best_avg_loss with _ | b
  · left; simp [conv_update, hb]
  · simp only [conv_update, hb]
    split
    · next hlt =>
        split
        · next hc => right; right; exact ⟨rfl, b, rfl, hlt⟩
        · next hc => left; rfl
    · next hlt =>
        split
        · next hge =>
            split
            · next hc => right; left; exact ⟨rfl, b, rfl, hge⟩
            · next hc => right; left; exact ⟨rfl, b, rfl, hge⟩
        · next hge => left; rfl

theorem conv_update_converged_counter (s : BCState P G O) (c : FVal)
    (h0 : s.converged = false) (h1 : (conv_update s c).converged = true) :
    (conv_update s c).loss_improvement_counter ≥ 100 := by
  rcases hb : s.best_avg_loss with _ | b
  · simp [conv_update, hb, h0] at h1
  · simp only [conv_update, hb] at h1 ⊢
    split at h1
    · next hlt => split at h1 <;> simp_all
    · next hlt =>
        split at h1
        · next hge =>
            split at h1
            · next hc =>
                simp only [hlt, hge, hc] at h1 ⊢
                simp [if_neg hlt, if_pos hge, if_pos hc]
                omega
            · next hc => simp_all
        · next hge => simp_all

/-! Helper lemmas about `check_convergence`. -/

theorem check_eligible_loss_list (s : BCState P G O) (l : List FVal) :
    check_eligible { s with loss_list := l } = check_eligible s := rfl

theorem cc_loss_list (cfg : BCConfig P G O D) (s : BCState P G O)
    (loss : FVal) (e : Int) :
    (check_convergence cfg s loss e).loss_list = push_loss s.loss_list loss := by
  simp only [check_convergence]
  split
  · split <;> simp [conv_update_loss_list]
  · rfl

theorem cc_global_iter (cfg : BCConfig P G O D) (s : BCState P G O)
    (loss : FVal) (e : Int) :
    (check_convergence cfg s loss e).global_iter = s.global_iter := by
  simp only [check_convergence]
  split
  · split <;> simp [conv_update_global_iter]
  · rfl

theorem cc_timerecords (cfg : BCConfig P G O D) (s : BCState P G O)
    (loss : FVal) (e : Int) :
    (check_convergence cfg s loss e).timerecords = s.timerecords := by
  simp only [check_convergence]
  split
  · split <;> simp [conv_update_timerecords]
  · rfl

theorem cc_training (cfg : BCConfig P G O D) (s : BCState P G O)
    (loss : FVal) (e : Int) :
    (check_convergence cfg s loss e).training = s.training := by
  simp only [check_convergence]
  split
  · split <;> simp [conv_update_training]
  · rfl

theorem cc_converged_char (cfg : BCConfig P G O D) (s : BCState P G O)
    (loss : FVal) (e : Int) :
    (check_convergence cfg s loss e).converged =
      (s.converged || (check_eligible s && no_improve_trigger s loss)) := by
  simp only [check_convergence]
  split
  · next helig =>
      rw [check_eligible_loss_list] at helig
      have hc : ∀ t : BCState P G O,
          (if (t.global_iter - 1) % cfg.log_interval == 0 && cfg.verbose then
            { t with msgs := t.msgs ++ [Msg.progress e t.global_iter
                (npMean (push_loss s.loss_list loss))
                t.loss_improvement_counter] } else t).converged = t.converged := by
        intro t; split <;> rfl
      rw [hc, conv_update_converged, helig]
      simp [no_improve_trigger, cur_mean]
  · next helig =>
      rw [check_eligible_loss_list] at helig
      simp only [Bool.not_eq_true] at helig
      rw [helig]
      simp

theorem cc_not_eligible (cfg : BCConfig P G O D) (s : BCState P G O)
    (loss : FVal) (e : Int) (h : check_eligible s = false) :
    check_convergence cfg s loss e =
      { s with loss_list := push_loss s.loss_list loss } := by
  simp only [check_convergence]
  rw [if_neg]
  rw [check_eligible_loss_list, h]
  simp

theorem cc_msgs_nan (cfg : BCConfig P G O D) (s : BCState P G O)
    (loss : FVal) (e : Int) :
    (Msg.nanLoss ∈ (check_convergence cfg s loss e).msgs) ↔
      Msg.nanLoss ∈ s.msgs := by
  simp only [check_convergence]
  split
  · split
    · simp [conv_update_msgs]
    · simp [conv_update_msgs]
  · simp

theorem cc_counter_cases (cfg : BCConfig P G O D) (s : BCState P G O)
    (loss : FVal) (e : Int) :
    (check_convergence cfg s loss e).loss_improvement_counter =
        s.loss_improvement_counter ∨
    ((check_convergence cfg s loss e).loss_improvement_counter =
        s.loss_improvement_counter + 1 ∧ check_eligible s = true ∧
      ∃ b, s.best_avg_loss = some b ∧ FVal.bge (cur_mean s loss) b = true) ∨
    ((check_convergence cfg s loss e).loss_improvement_counter = 0 ∧
        check_eligible s = true ∧
      ∃ b, s.best_avg_loss = some b ∧ FVal.blt (cur_mean s loss) b = true) := by
  simp only [check_convergence]
  split
  · next helig =>
      rw [check_eligible_loss_list] at helig
      have hc : ∀ t : BCState P G O,
          (if (t.global_iter - 1) % cfg.log_interval == 0 && cfg.verbose then
            { t with msgs := t.msgs ++ [Msg.progress e t.global_iter
                (npMean (push_loss s.loss_list loss))
                t.loss_improvement_counter] } else t).loss_improvement_counter
            = t.loss_improvement_counter := by
        intro t; split <;> rfl
      rw [hc]
      rcases conv_update_counter_cases
          { s with loss_list := push_loss s.loss_list loss }
          (npMean (push_loss s.loss_list loss)) with h | ⟨h, b, hb, hge⟩ | ⟨h, b, hb, hlt⟩
      · left; exact h
      · right; left
        refine ⟨h, helig, b, hb, ?_⟩
        simpa [cur_mean] using hge
      · right; right
        refine ⟨h, helig, b, hb, ?_⟩
        simpa [cur_mean] using hlt
  · left; rfl

theorem cc_converged_counter (cfg : BCConfig P G O D) (s : BCState P G O)
    (loss : FVal) (e : Int) (h0 : s.converged = false)
    (h1 : (check_convergence cfg s loss e).converged = true) :
    (check_convergence cfg s loss e).loss_improvement_counter ≥ 100 := by
  simp only [check_convergence] at h1 ⊢
  split at h1
  · next helig =>
      have hcv : ∀ t : BCState P G O,
          (if (t.global_iter - 1) % cfg.log_interval == 0 && cfg.verbose then
            { t with msgs := t.msgs ++ [Msg.progress e t.global_iter
                (npMean (push_loss s.loss_list loss))
                t.loss_improvement_counter] } else t).converged = t.converged := by
        intro t; split <;> rfl
      have hcc : ∀ t : BCState P G O,
          (if (t.global_iter - 1) % cfg.log_interval == 0 && cfg.verbose then
            { t with msgs := t.msgs ++ [Msg.progress e t.global_iter
                (npMean (push_loss s.loss_list loss))
                t.loss_improvement_counter] } else t).loss_improvement_counter
            = t.loss_improvement_counter := by
        intro t; split <;> rfl
      rw [hcv] at h1
      rw [if_pos helig, hcc]
      exact conv_update_converged_counter _ _ h0 h1
  · next helig =>
      rw [h0] at h1
      exact absurd h1 (by simp)

/-! Helper lemmas about the batch loop of `train`. -/

theorem train_go_converged (cfg : BCConfig P G O D) (e : Int) (mc iw : Nat)
    (l : List D) (s : BCState P G O) (h : s.converged = true) :
    train_go cfg e mc iw l s = s := by
  cases l with
  | nil => rfl
  | cons d rest => simp [train_go, h]

theorem train_go_global_iter_mono (cfg : BCConfig P G O D) (e : Int)
    (mc iw : Nat) (l : List D) (s : BCState P G O) :
    s.global_iter ≤ (train_go cfg e mc iw l s).global_iter := by
  induction l generalizing s with
  | nil => simp [train_go]
  | cons d rest ih =>
      simp only [train_go]
      split
      · exact le_refl _
      · split
        · simp [step_fst_global_iter]
        · refine le_trans ?_ (ih _)
          split
          · rw [cc_global_iter]
            simp [step_fst_global_iter]
          · simp [step_fst_global_iter]

theorem train_go_timerecords (cfg : BCConfig P G O D) (e : Int)
    (mc iw : Nat) (l : List D) (s : BCState P G O) :
    (train_go cfg e mc iw l s).timerecords = s.timerecords := by
  induction l generalizing s with
  | nil => rfl
  | cons d rest ih =>
      simp only [train_go]
      split
      · rfl
      · split
        · simp [step_fst_timerecords]
        · rw [ih]
          split
          · rw [cc_timerecords]
            simp [step_fst_timerecords]
          · simp [step_fst_timerecords]

theorem train_go_loss_len (cfg : BCConfig P G O D) (e : Int)
    (mc iw : Nat) (l : List D) (s : BCState P G O)
    (h : s.loss_list.length ≤ 100) :
    (train_go cfg e mc iw l s).loss_list.length ≤ 100 := by
  induction l generalizing s with
  | nil => simpa [train_go] using h
  | cons d rest ih =>
      simp only [train_go]
      split
      · exact h
      · split
        · simpa [step_fst_loss_list] using h
        · apply ih
          split
          · rw [cc_loss_list]
            apply push_loss_length
            simpa [step_fst_loss_list] using h
          · simpa [step_fst_loss_list] using h

theorem train_go_nan_head (cfg : BCConfig P G O D) (e : Int) (mc iw : Nat)
    (d : D) (rest : List D) (s : BCState P G O)
    (hcv : s.converged = false) (ht : s.training = true)
    (hn : (cfg.lossFn s.params (cfg.toDevice d) mc iw).isnan = true) :
    train_go cfg e mc iw (d :: rest) s =
      { s with global_iter := s.global_iter + 1
               grads := cfg.zeroGrad
               converged := true
               msgs := s.msgs ++ [Msg.nanLoss] } := by
  simp only [train_go, hcv]
  rw [step_nan_training cfg _ _ _ _ (by simpa using ht) (by simpa using hn)]
  simp [hn]

theorem train_go_all_processed (cfg : BCConfig P G O D) (e : Int)
    (mc iw : Nat) (l : List D) (s : BCState P G O)
    (h : (train_go cfg e mc iw l s).converged = false) :
    (train_go cfg e mc iw l s).global_iter = s.global_iter + l.length := by
  induction l generalizing s with
  | nil => simp [train_go]
  | cons d rest ih =>
      rcases hcv : s.converged with _ | _
      · simp only [train_go] at h ⊢
        rw [if_neg (by simp [hcv])] at h ⊢
        split at h
        · next hnan => simp at h
        · next hnan =>
            rw [if_neg hnan]
            rw [ih _ h]
            have hgi : (if (step cfg { s with global_iter := s.global_iter + 1 }
                  (cfg.toDevice d) mc iw).1.global_iter ≥ cfg.steps_anneal then
                check_convergence cfg
                  (step cfg { s with global_iter := s.global_iter + 1 }
                    (cfg.toDevice d) mc iw).1
                  (step cfg { s with global_iter := s.global_iter + 1 }
                    (cfg.toDevice d) mc iw).2 e
              else (step cfg { s with global_iter := s.global_iter + 1 }
                  (cfg.toDevice d) mc iw).1).global_iter = s.global_iter + 1 := by
              split
              · rw [cc_global_iter]
                simp [step_fst_global_iter]
              · simp [step_fst_global_iter]
            rw [hgi]
            simp
            ring
      · rw [train_go_converged cfg e mc iw _ _ hcv] at h
        rw [hcv] at h
        exact absurd h (by simp)

theorem train_go_converged_source (cfg : BCConfig P G O D) (e : Int)
    (mc iw : Nat) (l : List D) (s : BCState P G O)
    (h0 : s.converged = false) (hm : Msg.nanLoss ∉ s.msgs)
    (h1 : (train_go cfg e mc iw l s).converged = true) :
    Msg.nanLoss ∈ (train_go cfg e mc iw l s).msgs ∨
      (train_go cfg e mc iw l s).loss_improvement_counter ≥ 100 := by
  induction l generalizing s with
  | nil =>
      rw [train_go] at h1
      rw [h0] at h1
      exact absurd h1 (by simp)
  | cons d rest ih =>
      simp only [train_go] at h1 ⊢
      rw [if_neg (by simp [h0])] at h1 ⊢
      split at h1
      · next hnan =>
          rw [if_pos hnan]
          left
          simp
      · next hnan =>
          rw [if_neg hnan]
          split at h1
          · next hann =>
              rw [if_pos hann]
              rcases h3 : (check_convergence cfg
                  (step cfg { s with global_iter := s.global_iter + 1 }
                    (cfg.toDevice d) mc iw).1
                  (step cfg { s with global_iter := s.global_iter + 1 }
                    (cfg.toDevice d) mc iw).2 e).converged with _ | _
              · refine ih _ h3 ?_ ?_
                · rw [cc_msgs_nan, step_fst_msgs]
                  exact hm
                · exact h1
              · rw [train_go_converged _ _ _ _ _ _ h3] at h1 ⊢
                right
                refine cc_converged_counter _ _ _ _ ?_ h3
                rw [step_fst_converged]
                exact h0
          · next hann =>
              rw [if_neg hann]
              refine ih _ ?_ ?_ ?_
              · rw [step_fst_converged]
                exact h0
              · rw [step_fst_msgs]
                exact hm
              · exact h1

/-! Helper lemmas about `test`, the epoch loop and `run_training`. -/

theorem test_eval_eq (cfg : BCConfig P G O D) (l : List D) (mc iw : Nat)
    (s : BCState P G O) :
    test cfg l mc iw s =
      ({ s with training := true },
        (l.map fun d => cfg.lossFn s.params (cfg.toDevice d) mc iw).foldl
          FVal.add (FVal.fin 0)) := by
  have key : ∀ (l2 : List D) (acc : FVal),
      l2.foldl (fun acc2 d =>
        let pr := step cfg acc2.1 (cfg.toDevice d) mc iw
        (pr.1, FVal.add acc2.2 pr.2)) ({ s with training := false }, acc) =
      ({ s with training := false },
        (l2.map fun d => cfg.lossFn s.params (cfg.toDevice d) mc iw).foldl
          FVal.add acc) := by
    intro l2
    induction l2 with
    | nil => intro acc; rfl
    | cons d rest ih =>
        intro acc
        simp only [List.foldl_cons, List.map_cons]
        rw [step_not_training cfg _ _ _ _ rfl]
        exact ih _
  simp only [test]
  rw [key]

theorem loop_converged (cfg : BCConfig P G O D) (tl el : List D)
    (mc iw maxE fuel ep : Nat) (s : BCState P G O) (h : s.converged = true) :
    run_training_loop cfg tl el mc iw maxE fuel ep s = some (s, ep) := by
  cases fuel <;> simp [run_training_loop, h]

theorem loop_timerecords (cfg : BCConfig P G O D) (tl el : List D)
    (mc iw maxE : Nat) (fuel ep : Nat) (s : BCState P G O)
    (pr : BCState P G O × Nat)
    (h : run_training_loop cfg tl el mc iw maxE fuel ep s = some pr) :
    pr.1.timerecords = s.timerecords := by
  induction fuel generalizing ep s with
  | zero =>
      simp only [run_training_loop] at h
      split at h
      · cases h; rfl
      · cases h
  | succ fuel ih =>
      simp only [run_training_loop] at h
      split at h
      · cases h; rfl
      · split at h
        · cases h
          simp [train, train_go_timerecords]
        · rw [ih _ _ h]
          simp [train, train_go_timerecords]

theorem loop_global_iter_mono (cfg : BCConfig P G O D) (tl el : List D)
    (mc iw maxE : Nat) (fuel ep : Nat) (s : BCState P G O)
    (pr : BCState P G O × Nat)
    (h : run_training_loop cfg tl el mc iw maxE fuel ep s = some pr) :
    s.global_iter ≤ pr.1.global_iter := by
  induction fuel generalizing ep s with
  | zero =>
      simp only [run_training_loop] at h
      split at h
      · cases h; exact le_refl _
      · cases h
  | succ fuel ih =>
      simp only [run_training_loop] at h
      split at h
      · cases h; exact le_refl _
      · split at h
        · cases h
          simpa [train] using train_go_global_iter_mono cfg (ep : Int) mc iw tl
            { s with training := true }
        · refine le_trans ?_ (ih _ _ h)
          simpa [train] using train_go_global_iter_mono cfg (ep : Int) mc iw tl
            { s with training := true }

theorem loop_terminates (cfg : BCConfig P G O D) (tl el : List D)
    (mc iw maxE : Nat) :
    ∀ (fuel ep : Nat) (s : BCState P G O), ep < maxE → maxE - ep ≤ fuel →
    ∃ pr, run_training_loop cfg tl el mc iw maxE fuel ep s = some pr ∧
      pr.2 ≤ maxE ∧ (pr.1.converged = true ∨
        (pr.2 = maxE ∧ Msg.failedConverge maxE ∈ pr.1.msgs)) := by
  intro fuel
  induction fuel with
  | zero =>
      intro ep s h1 h2
      omega
  | succ fuel ih =>
      intro ep s h1 h2
      rcases hc : s.converged with _ | _
      · simp only [run_training_loop]
        rw [if_neg (by simp [hc])]
        by_cases hb : (ep + 1 == maxE &&
            !(train cfg tl el (ep : Int) mc iw s).converged) = true
        · rw [if_pos hb]
          refine ⟨_, rfl, ?_, ?_⟩
          · simp only [Bool.and_eq_true, beq_iff_eq] at hb
            omega
          · right
            simp only [Bool.and_eq_true, beq_iff_eq] at hb
            exact ⟨hb.1.symm ▸ rfl, by simp⟩
        · rw [if_neg hb]
          by_cases he : ep + 1 = maxE
          · have hs1 : (train cfg tl el (ep : Int) mc iw s).converged = true := by
              rcases hcc : (train cfg tl el (ep : Int) mc iw s).converged with _ | _
              · exact absurd (by simp [he, hcc]) hb
              · rfl
            rw [loop_converged _ _ _ _ _ _ _ _ _ hs1]
            exact ⟨_, rfl, by omega, Or.inl hs1⟩
          · have he2 : ep + 1 < maxE := by omega
            exact ih (ep + 1) _ he2 (by omega)
      · refine ⟨(s, ep), ?_, by omega, Or.inl hc⟩
        simp [run_training_loop, hc]

theorem run_training_err (cfg : BCConfig P G O D) (tl el : List D)
    (maxE mc iw : Nat) (elapsed : Rat) (s : BCState P G O)
    (pr : BCState P G O × Nat) (h0 : s.timerecords = none)
    (h : run_training_loop cfg tl el mc iw maxE maxE 0 s = some pr) :
    run_training cfg tl el maxE mc iw elapsed s =
      some (.error PyErr.attributeError) := by
  have htr : pr.1.timerecords = none := by
    rw [loop_timerecords _ _ _ _ _ _ _ _ _ _ h, h0]
  simp only [run_training]
  rw [h]
  rcases pr with ⟨s1, n⟩
  simp only at htr
  simp [htr]

/-! Claim theorems. -/

/-- Claim C1, counterexample: an infinite loss is non-finite, yet a `train`
run over two batches whose losses are `inf` sets no converged flag, prints
no message, and processes both batches (the fitting loop does not
terminate at the first batch), because the code tests `torch.isnan` only. -/
theorem train_inf_loss_does_not_terminate :
    FVal.isfinite ((unitCfg FVal.inf).lossFn () () 1 1) = false ∧
    (train (unitCfg FVal.inf) [(), ()] [] 0 1 1
      (base_init () () ())).converged = false ∧
    (train (unitCfg FVal.inf) [(), ()] [] 0 1 1
      (base_init () () ())).global_iter = 2 ∧
    (train (unitCfg FVal.inf) [(), ()] [] 0 1 1
      (base_init () () ())).msgs = [] := by
  exact ⟨rfl, by decide, by decide, by decide⟩

/-- Claim C1 (amended: "NaN" in place of "non-finite"): for every batch
processed by `train`, if the loss returned by `step` is NaN then the
NaN-loss message is printed, the converged flag is set, and the fitting
loop terminates with the model parameters untouched (the result does not
depend on the remaining batches); and no other error-like termination
occurs: whenever `train` returns with the converged flag clear, every
batch of the loader was processed. -/
theorem train_nan_loss_terminates_fitting (cfg : BCConfig P G O D)
    (el : List D) (e : Int) (mc iw : Nat) :
    (∀ (d : D) (rest : List D) (s : BCState P G O),
      s.converged = false →
      (cfg.lossFn s.params (cfg.toDevice d) mc iw).isnan = true →
      train cfg (d :: rest) el e mc iw s =
        { s with training := true
                 global_iter := s.global_iter + 1
                 grads := cfg.zeroGrad
                 converged := true
                 msgs := s.msgs ++ [Msg.nanLoss] }) ∧
    (∀ (tl : List D) (s : BCState P G O),
      (train cfg tl el e mc iw s).converged = false →
      (train cfg tl el e mc iw s).global_iter =
        s.global_iter + tl.length) := by
  constructor
  · intro d rest s hcv hn
    rw [train]
    exact train_go_nan_head cfg e mc iw d rest { s with training := true }
      hcv rfl hn
  · intro tl s h
    rw [train] at h ⊢
    exact train_go_all_processed cfg e mc iw tl { s with training := true } h

/-- Claim C1 witness: a concrete NaN-loss batch terminates the fitting
loop with the message and converged flag set. -/
theorem train_nan_loss_terminates_fitting_witness :
    (base_init () () () : BCState Unit Unit Unit).converged = false ∧
    ((unitCfg FVal.nan).lossFn () () 1 1).isnan = true ∧
    train (unitCfg FVal.nan) [(), ()] [] 0 1 1 (base_init () () ()) =
      { base_init () () () with training := true
                                global_iter := 1
                                grads := ()
                                converged := true
                                msgs := [Msg.nanLoss] } := by
  refine ⟨rfl, rfl, ?_⟩
  have h := (train_nan_loss_terminates_fitting (unitCfg FVal.nan)
    [] 0 1 1).1 () [()] (base_init () () ()) rfl rfl
  rw [h]
  decide

/-- Claim C2: when the converged flag is set, `train` processes no batches
(its only effect is switching the model to training mode: `global_iter`,
the parameters, `loss_list`, `best_avg_loss` and the counter are all
unchanged), and the epoch loop of `run_training` performs no further
iterations. -/
theorem converged_flag_halts_training (cfg : BCConfig P G O D)
    (tl el : List D) (e : Int) (mc iw maxE fuel ep : Nat)
    (s : BCState P G O) (h : s.converged = true) :
    train cfg tl el e mc iw s = { s with training := true } ∧
    run_training_loop cfg tl el mc iw maxE fuel ep s = some (s, ep) := by
  constructor
  · rw [train]
    exact train_go_converged cfg e mc iw tl { s with training := true } h
  · exact loop_converged cfg tl el mc iw maxE fuel ep s h

/-- Claim C2 witness: a concrete converged state is returned untouched by
`train` (except for the mode flag) and exits the epoch loop at once. -/
theorem converged_flag_halts_training_witness :
    ({ base_init () () () with converged := true } :
        BCState Unit Unit Unit).converged = true ∧
    train (unitCfg FVal.inf) [()] [] 0 1 1
        { base_init () () () with converged := true } =
      { base_init () () () with converged := true, training := true } ∧
    run_training_loop (unitCfg FVal.inf) [()] [] 1 1 5 3 2
        { base_init () () () with converged := true } =
      some ({ base_init () () () with converged := true }, 2) := by
  have h := converged_flag_halts_training (unitCfg FVal.inf) [()] [] 0 1 1
    5 3 2 { base_init () () () with converged := true } rfl
  refine ⟨rfl, ?_, h.2⟩
  rw [h.1]

/-- Claim C3: the training counters are monotonic between resets: no
operation of the class decreases `global_iter` (`check_convergence`,
`step` and `test` leave it unchanged, `train` and the epoch loop only
increase it), and each `check_convergence` call leaves
`loss_improvement_counter` unchanged, increments it by exactly 1 when the
current mean loss fails to improve on `best_avg_loss`, or resets it to 0
when the mean loss improves; `step` and `test` leave the counter
unchanged. -/
theorem training_counters_monotonic (cfg : BCConfig P G O D) :
    (∀ (s : BCState P G O) (loss : FVal) (e : Int),
      (check_convergence cfg s loss e).global_iter = s.global_iter) ∧
    (∀ (s : BCState P G O) (d : D) (mc iw : Nat),
      (step cfg s d mc iw).1.global_iter = s.global_iter ∧
      (step cfg s d mc iw).1.loss_improvement_counter =
        s.loss_improvement_counter) ∧
    (∀ (tl el : List D) (e : Int) (mc iw : Nat) (s : BCState P G O),
      s.global_iter ≤ (train cfg tl el e mc iw s).global_iter) ∧
    (∀ (l : List D) (mc iw : Nat) (s : BCState P G O),
      (test cfg l mc iw s).1.global_iter = s.global_iter ∧
      (test cfg l mc iw s).1.loss_improvement_counter =
        s.loss_improvement_counter) ∧
    (∀ (tl el : List D) (mc iw maxE fuel ep : Nat) (s : BCState P G O)
      (pr : BCState P G O × Nat),
      run_training_loop cfg tl el mc iw maxE fuel ep s = some pr →
      s.global_iter ≤ pr.1.global_iter) ∧
    (∀ (s : BCState P G O) (loss : FVal) (e : Int),
      (check_convergence cfg s loss e).loss_improvement_counter =
        s.loss_improvement_counter ∨
      ((check_convergence cfg s loss e).loss_improvement_counter =
          s.loss_improvement_counter + 1 ∧ check_eligible s = true ∧
        ∃ b, s.best_avg_loss = some b ∧
          FVal.bge (cur_mean s loss) b = true) ∨
      ((check_convergence cfg s loss e).loss_improvement_counter = 0 ∧
          check_eligible s = true ∧
        ∃ b, s.best_avg_loss = some b ∧
          FVal.blt (cur_mean s loss) b = true)) := by
  refine ⟨?_, ?_, ?_, ?_, ?_, ?_⟩
  · intro s loss e
    exact cc_global_iter cfg s loss e
  · intro s d mc iw
    exact ⟨step_fst_global_iter cfg s d mc iw, step_fst_counter cfg s d mc iw⟩
  · intro tl el e mc iw s
    rw [train]
    exact train_go_global_iter_mono cfg e mc iw tl { s with training := true }
  · intro l mc iw s
    rw [test_eval_eq]
    exact ⟨rfl, rfl⟩
  · intro tl el mc iw maxE fuel ep s pr h
    exact loop_global_iter_mono cfg tl el mc iw maxE fuel ep s pr h
  · intro s loss e
    exact cc_counter_cases cfg s loss e

/-- Claim C3 witness: monotonicity evaluated on a concrete completed epoch
loop and a concrete convergence check. -/
theorem training_counters_monotonic_witness :
    (0 : Int) ≤
      ({ base_init () () () with training := true, msgs := [Msg.failedConverge 1] } : BCState Unit Unit Unit).global_iter ∧
    (check_convergence (unitCfg FVal.inf) (base_init () () ())
      FVal.inf 0).loss_improvement_counter = 0 := by
  have h5 := (training_counters_monotonic (unitCfg FVal.inf)).2.2.2.2.1
    [] [] 1 1 1 1 0 (base_init () () ())
    ({ base_init () () () with training := true, msgs := [Msg.failedConverge 1] }, 1) (by decide)
  have h6 := (training_counters_monotonic (unitCfg FVal.inf)).2.2.2.2.2
    (base_init () () ()) FVal.inf 0
  refine ⟨h5, ?_⟩
  rcases h6 with h | ⟨h, he, _⟩ | ⟨h, he, _⟩
  · exact h
  · exact absurd he (by decide)
  · exact absurd he (by decide)

/-- Claim C4: `loss_list` is a rolling window bounded at 100 entries:
`check_convergence` replaces it by `push_loss` (append, then drop the
oldest entry when the length exceeds 100), which under the invariant
`length ≤ 100` equals the suffix of the appended list holding the most
recent entries in order and preserves the bound; `step` and `test` never
touch the list, and `train` preserves the bound. -/
theorem loss_list_rolling_window (cfg : BCConfig P G O D) :
    (∀ (s : BCState P G O) (loss : FVal) (e : Int),
      (check_convergence cfg s loss e).loss_list =
        push_loss s.loss_list loss) ∧
    (∀ (l : List FVal) (x : FVal), l.length ≤ 100 →
      push_loss l x = (l ++ [x]).drop (l.length + 1 - 100) ∧
      (push_loss l x).length ≤ 100) ∧
    (∀ (s : BCState P G O) (d : D) (mc iw : Nat),
      (step cfg s d mc iw).1.loss_list = s.loss_list) ∧
    (∀ (l : List D) (mc iw : Nat) (s : BCState P G O),
      (test cfg l mc iw s).1.loss_list = s.loss_list) ∧
    (∀ (tl el : List D) (e : Int) (mc iw : Nat) (s : BCState P G O),
      s.loss_list.length ≤ 100 →
      (train cfg tl el e mc iw s).loss_list.length ≤ 100) := by
  refine ⟨?_, ?_, ?_, ?_, ?_⟩
  · intro s loss e
    exact cc_loss_list cfg s loss e
  · intro l x h
    exact ⟨push_loss_drop l x h, push_loss_length l x h⟩
  · intro s d mc iw
    exact step_fst_loss_list cfg s d mc iw
  · intro l mc iw s
    rw [test_eval_eq]
  · intro tl el e mc iw s h
    rw [train]
    exact train_go_loss_len cfg e mc iw tl { s with training := true } h

/-- Claim C4 witness: the window update evaluated on a concrete list at
the bound and a concrete `train` run. -/
theorem loss_list_rolling_window_witness :
    push_loss (List.replicate 100 FVal.inf) FVal.neginf =
      (List.replicate 100 FVal.inf ++ [FVal.neginf]).drop 1 ∧
    (train (unitCfg FVal.inf) [(), ()] [] 0 1 1
      (base_init () () ())).loss_list.length ≤ 100 := by
  have h2 := (loss_list_rolling_window (unitCfg FVal.inf)).2.1
    (List.replicate 100 FVal.inf) FVal.neginf (by decide)
  have h5 := (loss_list_rolling_window (unitCfg FVal.inf)).2.2.2.2
    [(), ()] [] 0 1 1 (base_init () () ()) (by decide)
  refine ⟨?_, h5⟩
  rw [h2.1]
  simp

/-- Claim C5: checkpoint persistence round-trips: for every model state,
`model_name` and path, `save_model` stores the model's parameter state at
`os.path.join(path, model_name) + ".pth"`, and a subsequent `load_model`
with the same name and path (from any model state) restores exactly the
saved parameter state. -/
theorem save_load_round_trip (s s2 : BCState P G O)
    (model_name path : String) (fs : String → Option P) :
    save_model s model_name path fs (ckpt_path path model_name) =
      some s.params ∧
    load_model s2 model_name path (save_model s model_name path fs) =
      .ok { s2 with params := s.params } := by
  constructor
  · simp [save_model]
  · simp [load_model, save_model]

/-- Claim C6: evaluation does not mutate training state: `test` returns
the sum of the per-batch losses (each computed from the unchanged
parameters, since in evaluation mode `step` performs no optimizer step),
leaves the parameters, `global_iter`, `converged`, `loss_list`,
`best_avg_loss` and `loss_improvement_counter` unchanged, and always
returns with the model in training mode. -/
theorem test_no_training_mutation (cfg : BCConfig P G O D) (l : List D)
    (mc iw : Nat) (s : BCState P G O) :
    test cfg l mc iw s =
      ({ s with training := true },
        (l.map fun d => cfg.lossFn s.params (cfg.toDevice d) mc iw).foldl
          FVal.add (FVal.fin 0)) ∧
    (test cfg l mc iw s).1.params = s.params ∧
    (test cfg l mc iw s).1.global_iter = s.global_iter ∧
    (test cfg l mc iw s).1.converged = s.converged ∧
    (test cfg l mc iw s).1.loss_list = s.loss_list ∧
    (test cfg l mc iw s).1.best_avg_loss = s.best_avg_loss ∧
    (test cfg l mc iw s).1.loss_improvement_counter =
      s.loss_improvement_counter ∧
    (test cfg l mc iw s).1.training = true := by
  rw [test_eval_eq]
  exact ⟨rfl, rfl, rfl, rfl, rfl, rfl, rfl, rfl⟩

/-- Claim C7: NaN handling in a fitting iteration is atomic with respect
to the parameters: a training-mode `step` whose loss is NaN performs
neither the backward pass nor the optimizer step — its whole effect is
the `zero_grad` that precedes the forward pass — so the parameters are
unchanged and the NaN loss is returned. -/
theorem step_nan_loss_atomic (cfg : BCConfig P G O D) (s : BCState P G O)
    (d : D) (mc iw : Nat) (ht : s.training = true)
    (hn : (cfg.lossFn s.params d mc iw).isnan = true) :
    step cfg s d mc iw =
      ({ s with grads := cfg.zeroGrad }, cfg.lossFn s.params d mc iw) ∧
    (step cfg s d mc iw).1.params = s.params ∧
    (step cfg s d mc iw).2.isnan = true := by
  have h := step_nan_training cfg s d mc iw ht hn
  rw [h]
  exact ⟨rfl, rfl, hn⟩

/-- Claim C7 witness: a concrete NaN-loss training step leaves the
parameters untouched and returns NaN. -/
theorem step_nan_loss_atomic_witness :
    (base_init () () () : BCState Unit Unit Unit).training = true ∧
    ((unitCfg FVal.nan).lossFn () () 1 1).isnan = true ∧
    step (unitCfg FVal.nan) (base_init () () ()) () 1 1 =
      ({ base_init () () () with grads := () }, FVal.nan) := by
  have h := step_nan_loss_atomic (unitCfg FVal.nan) (base_init () () ())
    () 1 1 rfl rfl
  refine ⟨rfl, rfl, ?_⟩
  rw [h.1]
  rfl

/-- Claim C8: `run_training` ends in an `AttributeError` whenever its
epoch loop completes: `__init__` never initializes the `timerecords`
attribute, and recording the fitting time into it then raises. -/
theorem run_training_attribute_error (p : P) (g : G) (o : O) :
    (base_init p g o).timerecords = none ∧
    ∀ (cfg : BCConfig P G O D) (tl el : List D) (maxE mc iw : Nat)
      (elapsed : Rat) (s : BCState P G O) (pr : BCState P G O × Nat),
      s.timerecords = none →
      run_training_loop cfg tl el mc iw maxE maxE 0 s = some pr →
      run_training cfg tl el maxE mc iw elapsed s =
        some (.error PyErr.attributeError) := by
  refine ⟨rfl, ?_⟩
  intro cfg tl el maxE mc iw elapsed s pr h0 h
  exact run_training_err cfg tl el maxE mc iw elapsed s pr h0 h

/-- Claim C8 witness: a concrete completed `run_training` call raises
`AttributeError`. -/
theorem run_training_attribute_error_witness :
    (base_init () () () : BCState Unit Unit Unit).timerecords = none ∧
    run_training (unitCfg FVal.inf) [] [] 1 1 1 0 (base_init () () ()) =
      some (.error PyErr.attributeError) := by
  refine ⟨rfl, ?_⟩
  exact (run_training_attribute_error () () ()).2 (unitCfg FVal.inf) [] []
    1 1 1 0 (base_init () () ())
    ({ base_init () () () with training := true, msgs := [Msg.failedConverge 1] }, 1)
    rfl (by decide)

/-- Claim C9: convergence is declared only by the no-improvement
heuristic: `check_convergence` runs its mean-loss comparison only when
`(global_iter - 1) % 100 == 0 and global_iter != 1` (otherwise it only
updates the loss window), its converged flag becomes exactly "already
converged, or the check ran, the mean failed to improve, and the
incremented counter reached 100"; `step` and `test` never change the
flag; and a `train` call that newly sets the flag did so either through
the NaN-loss branch (evidenced by its printed message) or with the
no-improvement counter at 100 or more. -/
theorem convergence_decl_characterization (cfg : BCConfig P G O D) :
    (∀ (s : BCState P G O) (loss : FVal) (e : Int),
      (check_convergence cfg s loss e).converged =
        (s.converged || (check_eligible s && no_improve_trigger s loss))) ∧
    (∀ (s : BCState P G O) (loss : FVal) (e : Int),
      check_eligible s = false →
      check_convergence cfg s loss e =
        { s with loss_list := push_loss s.loss_list loss }) ∧
    (∀ (s : BCState P G O) (d : D) (mc iw : Nat),
      (step cfg s d mc iw).1.converged = s.converged) ∧
    (∀ (l : List D) (mc iw : Nat) (s : BCState P G O),
      (test cfg l mc iw s).1.converged = s.converged) ∧
    (∀ (tl el : List D) (e : Int) (mc iw : Nat) (s : BCState P G O),
      s.converged = false → Msg.nanLoss ∉ s.msgs →
      (train cfg tl el e mc iw s).converged = true →
      Msg.nanLoss ∈ (train cfg tl el e mc iw s).msgs ∨
        (train cfg tl el e mc iw s).loss_improvement_counter ≥ 100) := by
  refine ⟨?_, ?_, ?_, ?_, ?_⟩
  · intro s loss e
    exact cc_converged_char cfg s loss e
  · intro s loss e h
    exact cc_not_eligible cfg s loss e h
  · intro s d mc iw
    exact step_fst_converged cfg s d mc iw
  · intro l mc iw s
    rw [test_eval_eq]
  · intro tl el e mc iw s h0 hm h1
    rw [train] at h1 ⊢
    exact train_go_converged_source cfg e mc iw tl { s with training := true }
      h0 hm h1

/-- Claim C9 witness: the check is skipped on an ineligible iteration
count, and a concrete NaN-terminated `train` run shows the flag was set
through the NaN branch. -/
theorem convergence_decl_characterization_witness :
    check_eligible (base_init () () () : BCState Unit Unit Unit) = false ∧
    check_convergence (unitCfg FVal.inf) (base_init () () ()) FVal.inf 0 =
      { base_init () () () with loss_list := [FVal.inf] } ∧
    (Msg.nanLoss ∈ (train (unitCfg FVal.nan) [()] [] 0 1 1
        (base_init () () ())).msgs ∨
      (train (unitCfg FVal.nan) [()] [] 0 1 1
        (base_init () () ())).loss_improvement_counter ≥ 100) := by
  refine ⟨by decide, ?_, ?_⟩
  · have h := (convergence_decl_characterization (unitCfg FVal.inf)).2.1
      (base_init () () ()) FVal.inf 0 (by decide)
    rw [h]
    decide
  · exact (convergence_decl_characterization (unitCfg FVal.nan)).2.2.2.2
      [()] [] 0 1 1 (base_init () () ()) rfl (by decide) (by decide)

/-- Claim C10: `run_training` always terminates: for every
`max_epochs ≥ 1` its `while` loop, run with `max_epochs` worth of fuel
from `epoch = 0`, completes (never exhausts the fuel, i.e. performs at
most `max_epochs` iterations), ending either with the converged flag set
or at `epoch = max_epochs` having printed the failure message. -/
theorem run_training_loop_always_terminates (cfg : BCConfig P G O D)
    (tl el : List D) (mc iw maxE : Nat) (s : BCState P G O)
    (h : 1 ≤ maxE) :
    ∃ pr, run_training_loop cfg tl el mc iw maxE maxE 0 s = some pr ∧
      pr.2 ≤ maxE ∧ (pr.1.converged = true ∨
        (pr.2 = maxE ∧ Msg.failedConverge maxE ∈ pr.1.msgs)) := by
  exact loop_terminates cfg tl el mc iw maxE maxE 0 s (by omega) (by omega)

/-- Claim C10 witness: the epoch loop completes on a concrete
non-converging run with `max_epochs = 1`. -/
theorem run_training_loop_always_terminates_witness :
    (1 : Nat) ≤ 1 ∧
    ∃ pr, run_training_loop (unitCfg FVal.inf) [] [] 1 1 1 1 0
        (base_init () () () : BCState Unit Unit Unit) = some pr ∧
      pr.2 ≤ 1 ∧ (pr.1.converged = true ∨
        (pr.2 = 1 ∧ Msg.failedConverge 1 ∈ pr.1.msgs)) := by
  exact ⟨by decide, run_training_loop_always_terminates (unitCfg FVal.inf)
    [] [] 1 1 1 (base_init () () ()) (by decide)⟩

end DeepIRT
